import Mathlib

/-!
Verification of the AT-command protocol engine of the Wireless-IO repository.
The engine lives in at.c (OS version): URC dispatch, response matching,
command and work executors.  Byte buffers are modelled as lists of
characters, machine counters as naturals, and the semaphore layer as
explicit acquisition oracles and operation ledgers.
-/

namespace WirelessIO

/-- Command outcomes, the at_return enumeration as used throughout at.c
(AT_RET_OK, AT_RET_ERROR, AT_RET_TIMEOUT, AT_RET_ABORT). -/
inductive at_return where
  | AT_RET_OK
  | AT_RET_ERROR
  | AT_RET_TIMEOUT
  | AT_RET_ABORT
deriving DecidableEq, Repr

open at_return

/-- Byte strings (C char buffers) are modelled as lists of characters. -/
abbrev Bytes := List Char

/-- Does the second list start the first one?  Helper for strstr. -/
def startsWith : Bytes → Bytes → Bool
  | _, [] => true
  | [], _ :: _ => false
  | a :: as, b :: bs => a == b && startsWith as bs

/-- C strstr(hay, needle) viewed as a Bool: does needle occur as a
contiguous substring of hay? -/
def strstr : Bytes → Bytes → Bool
  | hay, needle =>
    match hay with
    | [] => needle.isEmpty
    | _ :: rest => startsWith hay needle || strstr rest needle

/-- C strchr(s, ch) viewed as a Bool.  strchr also finds the terminating
NUL, so a NUL character always answers true. -/
def strchr (s : Bytes) (ch : Char) : Bool := s.contains ch || ch == Char.ofNat 0

/-- Modelled from the spec: SPEC_URC_END_MARKS, the small fixed set of
line-termination and record markers recognised by the URC dispatcher.
The macro lives in at.h, which is not under src/; the spec describes it as
line-termination/record markers, and the dispatcher separately treats a
NUL byte as a marker. -/
def SPEC_URC_END_MARKS : Bytes := [':', ',', '\r', '\n']

/-- One URC table entry (urc_item_t in at.h as used by at.c): a match
pattern and the characters that may terminate this entry's message.
The C field named prefix is called pre here because prefix is reserved
in Lean. -/
structure urc_item_t where
  pre : Bytes
  end_mark : Bytes
deriving DecidableEq, Repr

/-- find_urc_item (at.c lines 258-271): with fewer than 2 accumulated
bytes no entry is returned; otherwise the first table entry whose pattern
occurs in the accumulated buffer wins. -/
def find_urc_item (tbl : List urc_item_t) (urc_buf : Bytes) (size : Nat) :
    Option urc_item_t :=
  if size < 2 then none
  else tbl.find? (fun it => strstr urc_buf it.pre)

/-- The mutable URC session fields of at_obj_t: the meaningful contents
urc_buf[0..urc_cnt), the fill count urc_cnt, and the tentatively matched
table entry urc_item. -/
structure UrcState where
  urc_buf : Bytes
  urc_cnt : Nat
  urc_item : Option urc_item_t
deriving DecidableEq, Repr

/-- The idle URC session: empty buffer, no tentative match. -/
def urcIdle : UrcState := ⟨[], 0, none⟩

/-- One iteration of the per-byte loop of urc_recv_process (at.c lines
305-339).  Besides the successor state it reports the list of buffer
indices written by this iteration (the data byte write
urc_buf[urc_cnt++] = ch and, on an end mark, the terminator write
urc_buf[urc_cnt] = NUL) and the handler invocations performed
(urc_handler_entry, with the entry and the text handed to it). -/
def urc_step (tbl : List urc_item_t) (urc_bufsize : Nat) (st : UrcState)
    (ch : Char) : UrcState × List Nat × List (urc_item_t × Bytes) :=
  let buf1 := st.urc_buf ++ [ch]
  let cnt1 := st.urc_cnt + 1
  if strchr SPEC_URC_END_MARKS ch then
    let w := [st.urc_cnt, cnt1]
    let item1 := match st.urc_item with
      | none => find_urc_item tbl buf1 cnt1
      | some it => some it
    match item1 with
    | some it =>
      if strchr it.end_mark ch then
        (urcIdle, w, [(it, buf1)])
      else
        (⟨buf1, cnt1, some it⟩, w, [])
    | none =>
      if ch = '\r' ∨ ch = '\n' ∨ ch = Char.ofNat 0 then
        (urcIdle, w, [])
      else
        (⟨buf1, cnt1, none⟩, w, [])
  else if urc_bufsize ≤ cnt1 then
    (urcIdle, [st.urc_cnt], [])
  else
    (⟨buf1, cnt1, st.urc_item⟩, [st.urc_cnt], [])

/-- The while (size--) loop of urc_recv_process, folded over a chunk. -/
def urc_run (tbl : List urc_item_t) (urc_bufsize : Nat) :
    UrcState → Bytes → UrcState × List Nat × List (urc_item_t × Bytes)
  | st, [] => (st, [], [])
  | st, ch :: rest =>
    let o1 := urc_step tbl urc_bufsize st ch
    let o2 := urc_run tbl urc_bufsize o1.1 rest
    (o2.1, o1.2.1 ++ o2.2.1, o1.2.2 ++ o2.2.2)

/-- urc_recv_process (at.c lines 289-340).  The idle-timeout test
at_istimeout(at->urc_timer, MAX_URC_RECV_TIMEOUT) is abstracted as the
boolean timedOut; when it fires on a non-empty session the code writes a
NUL terminator at index urc_cnt and resets the session before the loop. -/
def urc_recv_process (tbl : List urc_item_t) (urc_bufsize : Nat)
    (timedOut : Bool) (st : UrcState) (buf : Bytes) :
    UrcState × List Nat × List (urc_item_t × Bytes) :=
  let entry : UrcState × List Nat :=
    if 0 < st.urc_cnt ∧ timedOut = true then (urcIdle, [st.urc_cnt])
    else (st, [])
  let o := urc_run tbl urc_bufsize entry.1 buf
  (o.1, entry.2 ++ o.2.1, o.2.2)

/-- The URC table entry used by the spec's "+CREG:" scenario. -/
def cregEntry : urc_item_t := ⟨"+CREG:".toList, ['\r', '\n']⟩

/-- A response spec (at_respond_t in at.h as used by at.c): success-match
token, capacity of the caller-supplied receive buffer, and timeout in
milliseconds.  The recvbuf pointer itself is not modelled; its contents
live in RespState. -/
structure at_respond_t where
  matcher : Bytes
  bufsize : Nat
  timeout : Nat
deriving DecidableEq, Repr

/-- The response-side mutable fields of at_obj_t: the pending spec resp,
the meaningful receive-buffer contents recvbuf[0..rcv_cnt), the fill
count rcv_cnt, the recorded outcome ret, and the ledger of completion
semaphore posts (each at_sem_post(at->completed) appends the outcome it
was posted with). -/
structure RespState where
  resp : Option at_respond_t
  rcv : Bytes
  rcv_cnt : Nat
  ret : at_return
  posts : List at_return
deriving DecidableEq, Repr

/-- resp_notification (at.c lines 346-352): record the outcome, clear the
active spec, post the completion semaphore. -/
def resp_notification (st : RespState) (x : at_return) : RespState :=
  { st with ret := x, resp := none, posts := st.posts ++ [x] }

/-- The receive-buffer contents visible to the matcher after the append
step of resp_recv_process (at.c lines 371-382): if rcv_cnt + size would
reach the capacity, the fill count is first reset to zero (so only the
new chunk is visible), then the chunk is copied in and NUL-terminated. -/
def respCheckedContent (st : RespState) (r : at_respond_t) (buf : Bytes) :
    Bytes :=
  (if r.bufsize ≤ st.rcv_cnt + buf.length then [] else st.rcv) ++ buf

/-- The state after the append step of resp_recv_process: buffer contents
as respCheckedContent, fill count advanced (from zero if the overflow
reset fired). -/
def respAppended (st : RespState) (r : at_respond_t) (buf : Bytes) :
    RespState :=
  { st with
    rcv := respCheckedContent st r buf,
    rcv_cnt :=
      (if r.bufsize ≤ st.rcv_cnt + buf.length then 0 else st.rcv_cnt)
        + buf.length }

/-- The body of resp_recv_process once a spec is active (at.c lines
369-399).  With a non-empty chunk the accumulated buffer is checked for
the spec's success token first, then for the literal ERROR token; when
neither hits, the armed-timer expiry (abstracted as timedOut) and then
the suspend flag are polled.  With an empty chunk only the latter two
are polled. -/
def resp_active_step (timedOut suspend : Bool) (st : RespState)
    (r : at_respond_t) (buf : Bytes) : RespState :=
  if buf.length = 0 then
    if timedOut then resp_notification st AT_RET_TIMEOUT
    else if suspend then resp_notification st AT_RET_ABORT
    else st
  else
    if strstr (respCheckedContent st r buf) r.matcher then
      resp_notification (respAppended st r buf) AT_RET_OK
    else if strstr (respCheckedContent st r buf) ("ERROR".toList) then
      resp_notification (respAppended st r buf) AT_RET_ERROR
    else if timedOut then
      resp_notification (respAppended st r buf) AT_RET_TIMEOUT
    else if suspend then
      resp_notification (respAppended st r buf) AT_RET_ABORT
    else respAppended st r buf

/-- resp_recv_process (at.c lines 360-400): without an armed spec the
call is a no-op. -/
def resp_recv_process (timedOut suspend : Bool) (st : RespState)
    (buf : Bytes) : RespState :=
  match st.resp with
  | none => st
  | some r => resp_active_step timedOut suspend st r buf

/-- The arming performed by wait_resp (at.c lines 95-100): outcome preset
to AT_RET_TIMEOUT, receive count cleared, spec installed. -/
def wait_resp_arm (r : at_respond_t) : RespState :=
  { resp := some r, rcv := [], rcv_cnt := 0, ret := AT_RET_TIMEOUT
    posts := [] }

/-- A sequence of matcher polls: each item carries the chunk handed to
resp_recv_process together with the timedOut and suspend observations of
that call. -/
def resp_run : RespState → List (Bytes × Bool × Bool) → RespState
  | st, [] => st
  | st, c :: rest => resp_run (resp_recv_process c.2.1 c.2.2 st c.1) rest

/-- Lifecycle invariant of the completion semaphore: while a spec is
armed nothing has been posted yet, and once the spec is cleared exactly
one post has happened. -/
def RespLifecycleInv (st : RespState) : Prop :=
  (st.resp.isSome = true ∧ st.posts = []) ∨
  (st.resp = none ∧ st.posts.length = 1)

/-- The default response spec of at_do_cmd (at.c line 170):
{"OK", defbuf, sizeof(defbuf), 5000} with char defbuf[64]. -/
def default_resp : at_respond_t :=
  { matcher := "OK".toList, bufsize := 64, timeout := 5000 }

/-- Observable effects of one at_do_cmd call: the returned outcome, every
byte written to the transport, and the spec armed for wait_resp (none if
the command never ran). -/
structure DoCmdOut where
  ret : at_return
  tx : Bytes
  armed : Option at_respond_t
deriving DecidableEq, Repr

/-- at_do_cmd (at.c lines 166-190).  sendLockOk abstracts
at_sem_wait(at->send_lock, r->timeout); on failure the function returns
AT_RET_TIMEOUT without touching the transport.  Otherwise put_line sends
the command followed by CRLF and wait_resp arms the (possibly default)
spec; waitRet abstracts the outcome wait_resp reports.  The busy flag
toggling and the urc_cnt drain loop only affect timing and logging. -/
def at_do_cmd (sendLockOk : Bool) (r : Option at_respond_t) (cmd : Bytes)
    (waitRet : at_return) : DoCmdOut :=
  let rr := match r with
    | none => default_resp
    | some x => x
  if sendLockOk = false then
    { ret := AT_RET_TIMEOUT, tx := [], armed := none }
  else
    { ret := waitRet, tx := cmd ++ ['\r', '\n'], armed := some rr }

/-- Semaphore operations performed by at_do_work on its two locks. -/
inductive LockOp where
  | acqSend
  | acqRecv
  | postSend
  | postRecv
deriving DecidableEq, Repr

/-- Observable effects of one at_do_work call: whether it bailed out with
AT_RET_TIMEOUT before running the work function, the work function's
result when it ran, and the ledger of successful lock operations in
program order. -/
structure DoWorkOut where
  lockFailed : Bool
  workRet : Option Int
  lockOps : List LockOp
deriving DecidableEq, Repr

/-- at_do_work (at.c lines 199-225).  sendOk and recvOk abstract the two
at_sem_wait(..., MAX_AT_LOCK_TIME) calls.  A failed wait acquires
nothing; a successful wait is recorded in the ledger, as is every
at_sem_post. -/
def at_do_work (sendOk recvOk : Bool) (workRet : Int) : DoWorkOut :=
  if sendOk = false then ⟨true, none, []⟩
  else if recvOk = false then ⟨true, none, [LockOp.acqSend]⟩
  else ⟨false, some workRet,
    [LockOp.acqSend, LockOp.acqRecv, LockOp.postRecv, LockOp.postSend]⟩

/-- Net locks still held at the end of a ledger: acquisitions minus
releases, for the send lock and the recv lock respectively. -/
def locksHeldAfter (ops : List LockOp) : Nat × Nat :=
  (ops.count LockOp.acqSend - ops.count LockOp.postSend,
   ops.count LockOp.acqRecv - ops.count LockOp.postRecv)

/-- A byte being handed to one of the two receive-path consumers. -/
inductive RxEvent where
  | toUrc (c : Char)
  | toResp (c : Char)
deriving DecidableEq, Repr

/-- The do-while loop of at_process (at.c lines 439-444): each iteration
reads at most one byte (buf[1]); the chunk is handed to urc_recv_process
first and to resp_recv_process second; a zero-length read still performs
both calls with size 0 and then leaves the loop.  The reads list holds
the successive results of adap.read. -/
def at_process_loop (tbl : List urc_item_t) (bs : Nat) (t s : Bool) :
    List (Option Char) → UrcState → RespState →
      UrcState × RespState × List RxEvent
  | [], ust, rst => (ust, rst, [])
  | none :: _, ust, rst =>
    ((urc_recv_process tbl bs t ust []).1,
     resp_recv_process t s rst [], [])
  | some c :: rest, ust, rst =>
    let o := at_process_loop tbl bs t s rest
      (urc_recv_process tbl bs t ust [c]).1
      (resp_recv_process t s rst [c])
    (o.1, o.2.1, RxEvent.toUrc c :: RxEvent.toResp c :: o.2.2)

/-- at_process (at.c lines 433-447): nothing at all happens when the
recv_lock wait fails. -/
def at_process (tbl : List urc_item_t) (bs : Nat) (t s : Bool)
    (recvLockOk : Bool) (ust : UrcState) (rst : RespState)
    (reads : List (Option Char)) : UrcState × RespState × List RxEvent :=
  if recvLockOk then at_process_loop tbl bs t s reads ust rst
  else (ust, rst, [])

/-- at_work_read (at.c lines 67-73): reads raw bytes from the adapter,
hands them to urc_recv_process, then returns them to the caller. -/
def at_work_read (tbl : List urc_item_t) (bs : Nat) (t : Bool)
    (ust : UrcState) (transportBytes : Bytes) : Bytes × UrcState :=
  (transportBytes, (urc_recv_process tbl bs t ust transportBytes).1)

/-- The bytes actually consumed by the at_process loop: everything up to
(not including) the first zero-length read. -/
def consumedBytes : List (Option Char) → Bytes
  | [] => []
  | none :: _ => []
  | some c :: rest => c :: consumedBytes rest

/-- The event trace required by the demultiplexing order: every byte goes
to the URC dispatcher and immediately afterwards to the response
matcher. -/
def byteEvents : Bytes → List RxEvent
  | [] => []
  | c :: rest => RxEvent.toUrc c :: RxEvent.toResp c :: byteEvents rest

/-- The splitting loop of at_split_respond_lines (at.c lines 241-250):
walks the buffer while characters remain and i < count, cutting a new
field at every comma.  Returns the field count i and, in place of the
pointer array, the NUL-delimited field contents the caller would see. -/
def at_split_respond_lines_go :
    Bytes → Nat → Nat → Bytes → List Bytes → Nat × List Bytes
  | [], i, _, cur, done => (i, done ++ [cur])
  | c :: s, i, count, cur, done =>
    if i < count then
      if c = ',' then
        at_split_respond_lines_go s (i + 1) count [] (done ++ [cur])
      else
        at_split_respond_lines_go s i count (cur ++ [c]) done
    else (i, done ++ [cur ++ (c :: s)])

/-- at_split_respond_lines (at.c lines 234-252).  A null recvbuf or a
null lines array yields 0 with nothing written; otherwise lines[0] is
registered unconditionally (i starts at 1) before the bounded splitting
loop runs.  The separator parameter is accepted and never read: the loop
compares against a literal comma. -/
def at_split_respond_lines (recvbuf : Option Bytes) (linesIsNull : Bool)
    (count : Nat) (separator : Char) : Nat × List Bytes :=
  match recvbuf with
  | none => (0, [])
  | some s =>
    if linesIsNull then (0, [])
    else at_split_respond_lines_go s 1 count [] []

/-- C9: find_urc_item refuses to match any table entry while fewer than 2
bytes have accumulated, whatever the table holds, so a lone end-mark byte
can never trigger a handler. -/
theorem no_urc_match_below_two_bytes (tbl : List urc_item_t) (buf : Bytes)
    (size : Nat) (h : size < 2) : find_urc_item tbl buf size = none := by
  unfold find_urc_item
  simp [h]

/-- Witness for C9: a session holding just one carriage return matches no
entry even when the table would match on content. -/
theorem no_urc_match_below_two_bytes_witness :
    find_urc_item [cregEntry] ['\r'] 1 = none :=
  no_urc_match_below_two_bytes [cregEntry] ['\r'] 1 (by decide)

/-- C6: feeding the stream "+CREG: 1 CR LF" to urc_recv_process from an
idle session, with a table entry for "+CREG:" terminated by CR or LF,
invokes that entry's handler exactly once with the accumulated matched
text (the dispatch fires on the CR, so the text is "+CREG: 1" plus the
CR) and leaves the session idle: count zero, no tentative match. -/
theorem creg_urc_dispatch_once :
    (urc_recv_process [cregEntry] 32 false urcIdle
        ("+CREG: 1\r\n".toList)).2.2
      = [(cregEntry, "+CREG: 1\r".toList)]
    ∧ (urc_recv_process [cregEntry] 32 false urcIdle
        ("+CREG: 1\r\n".toList)).1 = urcIdle := by
  decide

/-- C1 is wrong about the code: the URC receiver can write one byte past
the configured capacity.  With urc_bufsize = 4, an empty table and the
stream "AAA CR", the three data bytes land at indices 0..2, the CR lands
at index 3, and because the overflow test sits in the else branch of the
end-mark test the terminating NUL is then written at index 4 = urc_bufsize
- an out-of-bounds write, not strictly within capacity. -/
theorem urc_overflow_write_at_capacity :
    (urc_recv_process [] 4 false urcIdle ("AAA\r".toList)).2.1
      = [0, 1, 2, 3, 4]
    ∧ ¬ (4 < 4) := by
  decide

/-- C2 is wrong about the code: when the send lock is acquired but the
recv lock wait fails, at_do_work returns AT_RET_TIMEOUT with the send
lock still held - the early return skips both at_sem_post calls, so one
send-lock acquisition is never released. -/
theorem at_do_work_leaks_send_lock :
    (at_do_work true false 0).lockFailed = true
    ∧ locksHeldAfter (at_do_work true false 0).lockOps = (1, 0) := by
  decide

/-- Counterexample for C3: when the send-lock wait fails, at_do_cmd
returns AT_RET_TIMEOUT - the very same value the response machinery
records for a protocol-level response timeout - so the claimed distinct
Busy result does not exist and lock contention is indistinguishable from
a response timeout. -/
theorem at_do_cmd_lock_fail_not_distinct :
    (at_do_cmd false none ("AT".toList) AT_RET_OK).ret = AT_RET_TIMEOUT
    ∧ (resp_recv_process true false (wait_resp_arm default_resp) []).ret
        = AT_RET_TIMEOUT := by
  decide

/-- C3 amended: on a failed send-lock wait at_do_cmd returns
AT_RET_TIMEOUT (the protocol-timeout code, not a distinct Busy value)
and writes nothing to the transport. -/
theorem at_do_cmd_lock_fail_returns_timeout (r : Option at_respond_t)
    (cmd : Bytes) (w : at_return) :
    (at_do_cmd false r cmd w).ret = AT_RET_TIMEOUT
    ∧ (at_do_cmd false r cmd w).tx = [] :=
  ⟨rfl, rfl⟩

/-- C8: a null response-spec argument makes at_do_cmd run the command
with the default spec - success token "OK", the private 64-byte defbuf,
5000 ms timeout - and the command line goes out terminated by CRLF. -/
theorem default_spec_ok_64_5000 (cmd : Bytes) (waitRet : at_return) :
    (at_do_cmd true none cmd waitRet).armed
      = some ⟨"OK".toList, 64, 5000⟩
    ∧ (at_do_cmd true none cmd waitRet).tx = cmd ++ ['\r', '\n'] :=
  ⟨rfl, rfl⟩

/-- Counterexample for C10: with a non-null buffer and output array but a
maximum count of 0, at_split_respond_lines still registers the first
field and returns 1, which is not between 1 and the supplied maximum. -/
theorem split_lines_count_zero_returns_one :
    (at_split_respond_lines (some ("a,b".toList)) false 0 ',').1 = 1
    ∧ ¬ (1 ≤ (0 : Nat)) := by
  decide

/-- Without an armed spec, resp_recv_process changes nothing. -/
theorem resp_step_none (t s : Bool) (st : RespState) (buf : Bytes)
    (h : st.resp = none) : resp_recv_process t s st buf = st := by
  simp [resp_recv_process, h]

/-- With an armed spec, resp_recv_process runs resp_active_step. -/
theorem resp_step_some (t s : Bool) (st : RespState) (buf : Bytes)
    (r : at_respond_t) (h : st.resp = some r) :
    resp_recv_process t s st buf = resp_active_step t s st r buf := by
  simp [resp_recv_process, h]

/-- A matcher poll on an armed spec either leaves the spec armed and the
post ledger untouched, or clears the spec and appends exactly one post. -/
theorem resp_step_cases (t s : Bool) (st : RespState) (r : at_respond_t)
    (buf : Bytes) (h : st.resp = some r) :
    ((resp_recv_process t s st buf).resp = some r
      ∧ (resp_recv_process t s st buf).posts = st.posts)
    ∨ (∃ x, (resp_recv_process t s st buf).resp = none
      ∧ (resp_recv_process t s st buf).posts = st.posts ++ [x]) := by
  rw [resp_step_some t s st buf r h]
  unfold resp_active_step
  split
  · split
    · exact Or.inr ⟨AT_RET_TIMEOUT, rfl, rfl⟩
    · split
      · exact Or.inr ⟨AT_RET_ABORT, rfl, rfl⟩
      · exact Or.inl ⟨h, rfl⟩
  · split
    · exact Or.inr ⟨AT_RET_OK, rfl, rfl⟩
    · split
      · exact Or.inr ⟨AT_RET_ERROR, rfl, rfl⟩
      · split
        · exact Or.inr ⟨AT_RET_TIMEOUT, rfl, rfl⟩
        · split
          · exact Or.inr ⟨AT_RET_ABORT, rfl, rfl⟩
          · exact Or.inl ⟨h, rfl⟩

/-- A matcher poll that observes an expired timer always resolves an
armed spec: the spec is cleared and exactly one outcome is posted. -/
theorem resp_step_timed_posts (s : Bool) (st : RespState)
    (r : at_respond_t) (buf : Bytes) (h : st.resp = some r) :
    ∃ x, (resp_recv_process true s st buf).resp = none
      ∧ (resp_recv_process true s st buf).posts = st.posts ++ [x] := by
  rw [resp_step_some true s st buf r h]
  unfold resp_active_step
  split
  · exact ⟨AT_RET_TIMEOUT, rfl, rfl⟩
  · split
    · exact ⟨AT_RET_OK, rfl, rfl⟩
    · split
      · exact ⟨AT_RET_ERROR, rfl, rfl⟩
      · exact ⟨AT_RET_TIMEOUT, rfl, rfl⟩

/-- One matcher poll preserves the completion lifecycle invariant. -/
theorem resp_step_inv (t s : Bool) (st : RespState) (buf : Bytes)
    (h : RespLifecycleInv st) :
    RespLifecycleInv (resp_recv_process t s st buf) := by
  rcases h with ⟨hs, hp⟩ | ⟨hn, hp⟩
  · cases hr : st.resp with
    | none => rw [hr] at hs; simp at hs
    | some r =>
      rcases resp_step_cases t s st r buf hr with ⟨h1, h2⟩ | ⟨x, h1, h2⟩
      · exact Or.inl ⟨by simp [h1], by simp [h2, hp]⟩
      · exact Or.inr ⟨h1, by simp [h2, hp]⟩
  · rw [resp_step_none t s st buf hn]
    exact Or.inr ⟨hn, hp⟩

/-- Any sequence of matcher polls preserves the lifecycle invariant. -/
theorem resp_run_inv (calls : List (Bytes × Bool × Bool)) :
    ∀ st : RespState, RespLifecycleInv st →
      RespLifecycleInv (resp_run st calls) := by
  induction calls with
  | nil => intro st h; exact h
  | cons c rest ih =>
    intro st h
    exact ih _ (resp_step_inv c.2.1 c.2.2 st c.1 h)

/-- Once the spec has been cleared, further polls change nothing. -/
theorem resp_run_cleared (calls : List (Bytes × Bool × Bool)) :
    ∀ st : RespState, st.resp = none → resp_run st calls = st := by
  induction calls with
  | nil => intro st _; rfl
  | cons c rest ih =>
    intro st h
    show resp_run (resp_recv_process c.2.1 c.2.2 st c.1) rest = st
    rw [resp_step_none c.2.1 c.2.2 st c.1 h]
    exact ih st h

/-- If some poll in the sequence observes an expired timer, the lifecycle
ends resolved: spec cleared and exactly one completion post. -/
theorem resp_run_trigger (calls : List (Bytes × Bool × Bool)) :
    ∀ st : RespState, RespLifecycleInv st →
      (∃ c ∈ calls, c.2.1 = true) →
      (resp_run st calls).resp = none
        ∧ (resp_run st calls).posts.length = 1 := by
  induction calls with
  | nil =>
    intro st _ htrig
    rcases htrig with ⟨c, hc, _⟩
    exact absurd hc (List.not_mem_nil c)
  | cons c rest ih =>
    intro st hinv htrig
    have hstep := resp_step_inv c.2.1 c.2.2 st c.1 hinv
    rcases htrig with ⟨c0, hc0, ht0⟩
    rcases List.mem_cons.mp hc0 with hhead | htail
    · subst hhead
      have hres : (resp_recv_process c0.2.1 c0.2.2 st c0.1).resp = none
          ∧ (resp_recv_process c0.2.1 c0.2.2 st c0.1).posts.length = 1 := by
        rcases hinv with ⟨hs, hp⟩ | ⟨hn, hp⟩
        · cases hr : st.resp with
          | none => rw [hr] at hs; simp at hs
          | some r =>
            rw [ht0] at *
            rcases resp_step_timed_posts c0.2.2 st r c0.1 hr
              with ⟨x, h1, h2⟩
            rw [ht0]
            exact ⟨h1, by simp [h2, hp]⟩
        · rw [resp_step_none c0.2.1 c0.2.2 st c0.1 hn]
          exact ⟨hn, hp⟩
      have hrw : resp_run st (c0 :: rest)
          = resp_recv_process c0.2.1 c0.2.2 st c0.1 := by
        show resp_run (resp_recv_process c0.2.1 c0.2.2 st c0.1) rest = _
        exact resp_run_cleared rest _ hres.1
      rw [hrw]
      exact hres
    · exact ih _ hstep ⟨c0, htail, ht0⟩

/-- C4: over a whole command lifecycle - spec armed by wait_resp, then an
arbitrary sequence of matcher polls with arbitrary chunks, timer and
suspend observations - the completion signal is posted at most once, and
as soon as some poll observes the expired timer (the outcome that is
always determined eventually) it has been posted exactly once with the
spec cleared, and no later byte or poll posts again. -/
theorem completion_posted_exactly_once (r : at_respond_t)
    (calls : List (Bytes × Bool × Bool)) :
    (resp_run (wait_resp_arm r) calls).posts.length ≤ 1
    ∧ ((∃ c ∈ calls, c.2.1 = true) →
        (resp_run (wait_resp_arm r) calls).posts.length = 1
        ∧ (resp_run (wait_resp_arm r) calls).resp = none) := by
  have hinv0 : RespLifecycleInv (wait_resp_arm r) := Or.inl ⟨rfl, rfl⟩
  constructor
  · rcases resp_run_inv calls (wait_resp_arm r) hinv0 with ⟨_, hp⟩ | ⟨_, hp⟩
    · simp [hp]
    · simp [hp]
  · intro htrig
    have h := resp_run_trigger calls (wait_resp_arm r) hinv0 htrig
    exact ⟨h.2, h.1⟩

/-- Witness for C4: arming the default spec and polling twice - once with
an expired timer, once more with a stray byte - yields exactly one
completion post. -/
theorem completion_posted_exactly_once_witness :
    (resp_run (wait_resp_arm default_resp)
        [([], true, false), (['O'], false, false)]).posts.length = 1 :=
  ((completion_posted_exactly_once default_resp
      [([], true, false), (['O'], false, false)]).2
    ⟨([], true, false), by simp, rfl⟩).1

/-- C5: on an armed spec, a non-empty chunk whose accumulated buffer
contains both the spec's success token and the literal ERROR token
records Success, not ProtocolError - the success test runs first. -/
theorem success_checked_before_error (t s : Bool) (st : RespState)
    (r : at_respond_t) (buf : Bytes) (hresp : st.resp = some r)
    (hbuf : ¬ buf.length = 0)
    (hsucc : strstr (respCheckedContent st r buf) r.matcher = true)
    (herr : strstr (respCheckedContent st r buf) ("ERROR".toList) = true) :
    (resp_recv_process t s st buf).ret = AT_RET_OK
    ∧ (resp_recv_process t s st buf).posts = st.posts ++ [AT_RET_OK] := by
  rw [resp_step_some t s st buf r hresp]
  unfold resp_active_step
  rw [if_neg hbuf, if_pos hsucc]
  exact ⟨rfl, rfl⟩

/-- Witness for C5: with success token "OK" and the response text
"OK ERROR", which contains both tokens, the recorded outcome is
AT_RET_OK. -/
theorem success_checked_before_error_witness :
    (resp_recv_process false false (wait_resp_arm default_resp)
        ("OK ERROR".toList)).ret = AT_RET_OK
    ∧ (resp_recv_process false false (wait_resp_arm default_resp)
        ("OK ERROR".toList)).posts
      = (wait_resp_arm default_resp).posts ++ [AT_RET_OK] :=
  success_checked_before_error false false (wait_resp_arm default_resp)
    default_resp ("OK ERROR".toList) rfl (by decide) (by decide) (by decide)

/-- The at_process loop hands every consumed byte to the URC dispatcher
first and to the response matcher immediately afterwards, whatever the
engine state. -/
theorem at_process_loop_events (tbl : List urc_item_t) (bs : Nat)
    (t s : Bool) (reads : List (Option Char)) :
    ∀ (ust : UrcState) (rst : RespState),
      (at_process_loop tbl bs t s reads ust rst).2.2
        = byteEvents (consumedBytes reads) := by
  induction reads with
  | nil => intro ust rst; rfl
  | cons o rest ih =>
    intro ust rst
    cases o with
    | none => rfl
    | some c => simp [at_process_loop, consumedBytes, byteEvents, ih]

/-- C7: every byte obtained from the transport is offered to the URC
dispatcher before the response matcher.  In the background reader the
event trace is exactly urc-then-resp per consumed byte (and nothing is
read at all when the recv lock is not acquired); in a work session
at_work_read returns exactly the bytes it read, with the URC state
already advanced over them by urc_recv_process before the return. -/
theorem urc_before_resp_ordering :
    (∀ (tbl : List urc_item_t) (bs : Nat) (t s : Bool) (ust : UrcState)
        (rst : RespState) (reads : List (Option Char)),
      (at_process tbl bs t s true ust rst reads).2.2
        = byteEvents (consumedBytes reads))
    ∧ (∀ (tbl : List urc_item_t) (bs : Nat) (t s : Bool) (ust : UrcState)
        (rst : RespState) (reads : List (Option Char)),
      (at_process tbl bs t s false ust rst reads).2.2 = [])
    ∧ (∀ (tbl : List urc_item_t) (bs : Nat) (t : Bool) (ust : UrcState)
        (bytes : Bytes),
      (at_work_read tbl bs t ust bytes).1 = bytes
      ∧ (at_work_read tbl bs t ust bytes).2
          = (urc_recv_process tbl bs t ust bytes).1) := by
  refine ⟨?_, ?_, ?_⟩
  · intro tbl bs t s ust rst reads
    simpa [at_process] using at_process_loop_events tbl bs t s reads ust rst
  · intro tbl bs t s ust rst reads
    simp [at_process]
  · intro tbl bs t ust bytes
    exact ⟨rfl, rfl⟩

/-- The splitting loop only ever increments the field count while it is
below the bound, so from a start value within the bound it stays within
the bound and never decreases. -/
theorem split_go_bounds (s : Bytes) :
    ∀ (i count : Nat) (cur : Bytes) (done : List Bytes), i ≤ count →
      i ≤ (at_split_respond_lines_go s i count cur done).1
      ∧ (at_split_respond_lines_go s i count cur done).1 ≤ count := by
  induction s with
  | nil =>
    intro i count cur done h
    exact ⟨Nat.le_refl i, h⟩
  | cons c rest ih =>
    intro i count cur done h
    by_cases hic : i < count
    · by_cases hc : c = ','
      · simp only [at_split_respond_lines_go, if_pos hic, if_pos hc]
        have hb := ih (i + 1) count [] (done ++ [cur]) hic
        exact ⟨Nat.le_trans (Nat.le_succ i) hb.1, hb.2⟩
      · simp only [at_split_respond_lines_go, if_pos hic, if_neg hc]
        exact ih i count (cur ++ [c]) done h
    · simp only [at_split_respond_lines_go, if_neg hic]
      exact ⟨Nat.le_refl i, h⟩

/-- On a buffer free of commas the splitting loop cuts nothing: it
returns the incoming field count with the whole remainder as the one
open field. -/
theorem split_go_nocomma (s : Bytes) :
    ∀ (i count : Nat) (cur : Bytes) (done : List Bytes),
      (∀ c ∈ s, c ≠ ',') →
      at_split_respond_lines_go s i count cur done
        = (i, done ++ [cur ++ s]) := by
  induction s with
  | nil =>
    intro i count cur done _
    simp [at_split_respond_lines_go]
  | cons c rest ih =>
    intro i count cur done h
    by_cases hic : i < count
    · have hc : ¬ c = ',' := h c (by simp)
      simp only [at_split_respond_lines_go, if_pos hic, if_neg hc]
      rw [ih i count (cur ++ [c]) done (fun x hx => h x (by simp [hx]))]
      simp
    · simp [at_split_respond_lines_go, if_neg hic]

/-- C10 amended: a null buffer or a null output array yields 0 with no
fields; otherwise the first field is registered unconditionally, so the
returned count is between 1 and the maximum whenever the maximum is at
least 1 (a maximum of 0 still yields 1); the separator parameter is
ignored, and without commas no split ever happens - the split character
is the literal comma. -/
theorem split_lines_amended :
    (∀ (b : Bool) (count : Nat) (sep : Char),
      at_split_respond_lines none b count sep = (0, []))
    ∧ (∀ (buf : Bytes) (count : Nat) (sep : Char),
      at_split_respond_lines (some buf) true count sep = (0, []))
    ∧ (∀ (buf : Option Bytes) (b : Bool) (count : Nat) (sep sepAlt : Char),
      at_split_respond_lines buf b count sep
        = at_split_respond_lines buf b count sepAlt)
    ∧ (∀ (buf : Bytes) (count : Nat) (sep : Char), 1 ≤ count →
      1 ≤ (at_split_respond_lines (some buf) false count sep).1
      ∧ (at_split_respond_lines (some buf) false count sep).1 ≤ count)
    ∧ (∀ (buf : Bytes) (count : Nat) (sep : Char), ',' ∉ buf →
      at_split_respond_lines (some buf) false count sep = (1, [buf])) := by
  refine ⟨?_, ?_, ?_, ?_, ?_⟩
  · intro b count sep; rfl
  · intro buf count sep; simp [at_split_respond_lines]
  · intro buf b count sep sepAlt; rfl
  · intro buf count sep h
    simpa [at_split_respond_lines] using
      split_go_bounds buf 1 count [] [] h
  · intro buf count sep h
    have hnc : ∀ c ∈ buf, c ≠ ',' := by
      intro c hc
      intro hceq
      exact h (hceq ▸ hc)
    simpa [at_split_respond_lines] using
      split_go_nocomma buf 1 count [] [] hnc

/-- Witness for C10: with a bound of 2 the count lands between 1 and 2,
and a comma-free buffer with the separator argument set to a hash still
comes back whole - the hash does not split it. -/
theorem split_lines_amended_witness :
    (1 ≤ (at_split_respond_lines (some ("a;b,c".toList)) false 2 ';').1
      ∧ (at_split_respond_lines (some ("a;b,c".toList)) false 2 ';').1 ≤ 2)
    ∧ at_split_respond_lines (some ("xyz".toList)) false 3 '#'
        = (1, ["xyz".toList]) :=
  ⟨split_lines_amended.2.2.2.1 ("a;b,c".toList) 2 ';' (by decide),
   split_lines_amended.2.2.2.2 ("xyz".toList) 3 '#' (by decide)⟩

end WirelessIO
